import Mathlib

/-!
Verification of the dual-track sector-relative screening engine
(scripts/scanner/sector_screener.py, scripts/scanner/config.py,
scripts/scanner/data_fetcher.py).

Modelling conventions:
* Python floats are modelled as exact rationals; the Graham number, which is
  produced by a square root, lives in the reals via Real.sqrt.
* Python truthiness is modelled faithfully: `x or y` on a float/str/None value
  falls back to `y` exactly when `x` is `None`, `0.0` or the empty string, and
  `if x and y` requires both operands to be non-None and nonzero/nonempty.
* Python `list.sort(key=k, reverse=True)` is a stable descending sort; it is
  modelled by `List.insertionSort` with the relation "key of the right operand
  is at most key of the left operand", which is exactly the stable descending
  sort on lists (Mathlib insertion sort is stable for this relation).
* Decimal formatting inside the human-readable failure-reason strings
  (Python `:.1f`, `:.2%`) is abstracted to `toString` of the exact rational;
  no claim depends on the decimal rendering of the numbers inside a reason.
-/

/-- Raw financial metrics for a single ticker
(data_fetcher.py, dataclass TickerMetrics).  The Python field `peg_ratio`
is named `peg` here. -/
structure TickerMetrics where
  symbol : String
  trailing_pe : Option ℚ := none
  forward_pe : Option ℚ := none
  peg : Option ℚ := none
  roe : Option ℚ := none
  debt_to_equity : Option ℚ := none
  trailing_eps : Option ℚ := none
  book_value : Option ℚ := none
  current_price : Option ℚ := none
  earnings_growth : Option ℚ := none
  sector : Option String := none
  industry : Option String := none
  market_cap : Option ℚ := none
  company_name : Option String := none
  fetch_error : Option String := none
deriving DecidableEq

/-- TickerMetrics.is_valid (data_fetcher.py lines 38-41):
no fetch error recorded and trailing EPS present. -/
def TickerMetrics.is_valid (m : TickerMetrics) : Bool :=
  m.fetch_error.isNone && m.trailing_eps.isSome

/-- Dual-track screening configuration
(config.py, dataclass SectorRelativeThresholds). -/
structure SectorRelativeThresholds where
  sector_percentile_threshold : ℚ := 30 / 100
  min_sector_size : ℕ := 5
  safety_pe_max : ℚ := 50
  safety_peg_max : ℚ := 3
  safety_roe_min : ℚ := 5 / 100
  safety_de_max : ℚ := 2
  graham_multiplier : ℚ := 45 / 2
deriving DecidableEq

/-- config.py DEFAULT_SECTOR_THRESHOLDS. -/
def DEFAULT_SECTOR_THRESHOLDS : SectorRelativeThresholds := {}

/-- config.py calculate_graham_number: sqrt(multiplier * EPS * BVPS),
returning None when EPS or BVPS is nonpositive. -/
noncomputable def calculate_graham_number
    (eps : ℚ) (book_value_per_share : ℚ) (multiplier : ℚ := 45 / 2) :
    Option ℝ :=
  if eps ≤ 0 ∨ book_value_per_share ≤ 0 then none
  else some (Real.sqrt ((multiplier * eps * book_value_per_share : ℚ) : ℝ))

/-- Per-security percentile standing within its sector
(sector_screener.py, dataclass SectorPercentiles). -/
structure SectorPercentiles where
  pe_percentile : Option ℚ := none
  peg_percentile : Option ℚ := none
  roe_percentile : Option ℚ := none
  de_percentile : Option ℚ := none
  sector : String := ""
  sector_count : ℕ := 0
deriving DecidableEq

/-- Dual-track screening result
(sector_screener.py, dataclass SectorScreeningResult). -/
structure SectorScreeningResult where
  symbol : String
  passed : Bool
  screening_mode : String
  sector_percentiles : Option SectorPercentiles := none
  passed_sector_filter : Bool := false
  passed_safety_filter : Bool := false
  safety_fail_reasons : List String := []
  graham_number : Option ℝ := none
  current_price : Option ℚ := none
  margin_of_safety_pct : Option ℝ := none
  metrics : Option TickerMetrics := none
  fail_reasons : List String := []

/-- sector_screener.py _compute_metric_rank (lines 108-129):
normalized rank better_count / (N - 1); 0 for N at most 1. -/
def _compute_metric_rank
    (value : ℚ) (all_values : List ℚ) (lower_is_better : Bool) : ℚ :=
  if all_values.length ≤ 1 then 0
  else
    (if lower_is_better then
       ((all_values.countP (fun v => decide (v < value)) : ℚ) /
         ((all_values.length : ℚ) - 1))
     else
       ((all_values.countP (fun v => decide (value < v)) : ℚ) /
         ((all_values.length : ℚ) - 1)))

/-- Python `m.sector or "Unknown"`: None and the empty string both fall
back to "Unknown". -/
def sectorLabel (m : TickerMetrics) : String :=
  match m.sector with
  | none => "Unknown"
  | some s => if s = "" then "Unknown" else s

/-- One step of the insertion-ordered dict building in _group_by_sector:
`groups.setdefault(sector, []).append(m)`.  The entry for the key is
extended in place if present, otherwise a new entry is appended at the end. -/
def addToGroups (gs : List (String × List TickerMetrics)) (s : String)
    (m : TickerMetrics) : List (String × List TickerMetrics) :=
  match gs with
  | [] => [(s, [m])]
  | (k, v) :: rest =>
      if k = s then (k, v ++ [m]) :: rest else (k, v) :: addToGroups rest s m

/-- sector_screener.py _group_by_sector (lines 132-140): partition by GICS
sector in insertion order, missing sector mapped to "Unknown". -/
def _group_by_sector (metrics_list : List TickerMetrics) :
    List (String × List TickerMetrics) :=
  metrics_list.foldl (fun gs m => addToGroups gs (sectorLabel m) m) []

/-- sector_screener.py _calculate_sector_percentiles (lines 143-181). -/
def _calculate_sector_percentiles
    (metrics : TickerMetrics) (sector_group : List TickerMetrics) :
    SectorPercentiles :=
  let pe_values := sector_group.filterMap (fun m => m.trailing_pe)
  let peg_values := sector_group.filterMap (fun m => m.peg)
  let roe_values := sector_group.filterMap (fun m => m.roe)
  let de_values := sector_group.filterMap (fun m => m.debt_to_equity)
  { pe_percentile :=
      match metrics.trailing_pe with
      | some v =>
          if 1 < pe_values.length then
            some (_compute_metric_rank v pe_values true)
          else none
      | none => none
    peg_percentile :=
      match metrics.peg with
      | some v =>
          if 1 < peg_values.length then
            some (_compute_metric_rank v peg_values true)
          else none
      | none => none
    roe_percentile :=
      match metrics.roe with
      | some v =>
          if 1 < roe_values.length then
            some (_compute_metric_rank v roe_values false)
          else none
      | none => none
    de_percentile :=
      match metrics.debt_to_equity with
      | some v =>
          if 1 < de_values.length then
            some (_compute_metric_rank v de_values true)
          else none
      | none => none
    sector := sectorLabel metrics
    sector_count := sector_group.length }

/-- Human-readable reason for a P/E safety violation (formatting abstracted). -/
def peReason (v c : ℚ) : String :=
  "P/E " ++ toString v ++ " >= 安全上限 " ++ toString c

/-- Human-readable reason for a PEG safety violation (formatting abstracted). -/
def pegReason (v c : ℚ) : String :=
  "PEG " ++ toString v ++ " >= 安全上限 " ++ toString c

/-- Human-readable reason for a ROE safety violation (formatting abstracted). -/
def roeReason (v c : ℚ) : String :=
  "ROE " ++ toString v ++ " < 安全下限 " ++ toString c

/-- Human-readable reason for a D/E safety violation (formatting abstracted). -/
def deReason (v c : ℚ) : String :=
  "D/E " ++ toString v ++ " > 安全上限 " ++ toString c

/-- Lines 195-200: the P/E block of the safety filter (fails when the
metric is present and at or above the ceiling). -/
def peSeg (metrics : TickerMetrics) (thresholds : SectorRelativeThresholds) :
    List String :=
  match metrics.trailing_pe with
  | some v =>
      if thresholds.safety_pe_max ≤ v then
        [peReason v thresholds.safety_pe_max]
      else []
  | none => []

/-- Lines 202-207: the PEG block of the safety filter. -/
def pegSeg (metrics : TickerMetrics) (thresholds : SectorRelativeThresholds) :
    List String :=
  match metrics.peg with
  | some v =>
      if thresholds.safety_peg_max ≤ v then
        [pegReason v thresholds.safety_peg_max]
      else []
  | none => []

/-- Lines 209-214: the ROE block of the safety filter (fails when the
metric is present and strictly below the floor). -/
def roeSeg (metrics : TickerMetrics) (thresholds : SectorRelativeThresholds) :
    List String :=
  match metrics.roe with
  | some v =>
      if v < thresholds.safety_roe_min then
        [roeReason v thresholds.safety_roe_min]
      else []
  | none => []

/-- Lines 216-221: the D/E block of the safety filter (fails when the
metric is present and strictly above the ceiling). -/
def deSeg (metrics : TickerMetrics) (thresholds : SectorRelativeThresholds) :
    List String :=
  match metrics.debt_to_equity with
  | some v =>
      if thresholds.safety_de_max < v then
        [deReason v thresholds.safety_de_max]
      else []
  | none => []

/-- sector_screener.py _apply_safety_filter (lines 184-223): loose absolute
bounds; a missing metric is skipped; all violations are collected in order
P/E, PEG, ROE, D/E; passes iff no violation. -/
def _apply_safety_filter (metrics : TickerMetrics)
    (thresholds : SectorRelativeThresholds := DEFAULT_SECTOR_THRESHOLDS) :
    Bool × List String :=
  let fail_reasons : List String :=
    peSeg metrics thresholds ++ pegSeg metrics thresholds ++
      roeSeg metrics thresholds ++ deSeg metrics thresholds
  (fail_reasons.isEmpty, fail_reasons)

/-- The Track-1 check list of screen_batch_dual_track lines 267-283: one
boolean per defined percentile, comparing it against the cutoff, in source
order P/E, PEG, ROE, D/E. -/
def pctChecks (percentiles : SectorPercentiles) (t : ℚ) : List Bool :=
  (percentiles.pe_percentile.toList.map (fun p => decide (p ≤ t))) ++
  (percentiles.peg_percentile.toList.map (fun p => decide (p ≤ t))) ++
  (percentiles.roe_percentile.toList.map (fun p => decide (p ≤ t))) ++
  (percentiles.de_percentile.toList.map (fun p => decide (p ≤ t)))

/-- Lines 303-310: the Graham number of one record.  Python truthiness of
`if metrics.trailing_eps and metrics.book_value` is modelled exactly:
None and zero both skip the computation. -/
noncomputable def grahamOf (thresholds : SectorRelativeThresholds)
    (metrics : TickerMetrics) : Option ℝ :=
  match metrics.trailing_eps, metrics.book_value with
  | some e, some b =>
      if e ≠ 0 ∧ b ≠ 0 then
        calculate_graham_number e b thresholds.graham_multiplier
      else none
  | _, _ => none

/-- Lines 311-312: the margin of safety of one record.  Python truthiness of
`if graham and metrics.current_price` is modelled exactly: None and zero
both skip the computation. -/
noncomputable def mosOf (thresholds : SectorRelativeThresholds)
    (metrics : TickerMetrics) : Option ℝ :=
  match grahamOf thresholds metrics, metrics.current_price with
  | some g, some p =>
      if g ≠ 0 ∧ p ≠ 0 then some ((g - (p : ℝ)) / g * 100) else none
  | _, _ => none

/-- The loop body of screen_batch_dual_track (lines 256-329) for one valid
record inside its sector group: Track 2 safety bounds, Track 1 sector
percentiles (or the safety_only fallback for a small group), the final
verdict, the aggregated failure reasons and the informational Graham
number / margin of safety. -/
noncomputable def screenOne (group : List TickerMetrics)
    (thresholds : SectorRelativeThresholds) (metrics : TickerMetrics) :
    SectorScreeningResult :=
  let safety := _apply_safety_filter metrics thresholds
  let safety_passed := safety.1
  let safety_reasons := safety.2
  let percentiles := _calculate_sector_percentiles metrics group
  let use_sector_filter : Bool := decide (thresholds.min_sector_size ≤ group.length)
  let pct_checks : List Bool :=
    pctChecks percentiles thresholds.sector_percentile_threshold
  let screening_mode := if use_sector_filter then "dual_track" else "safety_only"
  let sector_passed : Bool :=
    if use_sector_filter then (!pct_checks.isEmpty) && pct_checks.all id
    else true
  let passed := safety_passed && sector_passed
  let fail_reasons : List String :=
    (if !sector_passed && use_sector_filter then ["未通過產業內百分位排名篩選"] else []) ++
    (if !safety_passed then safety_reasons else [])
  let graham : Option ℝ := grahamOf thresholds metrics
  let mos : Option ℝ := mosOf thresholds metrics
  { symbol := metrics.symbol
    passed := passed
    screening_mode := screening_mode
    sector_percentiles := some percentiles
    passed_sector_filter := sector_passed
    passed_safety_filter := safety_passed
    safety_fail_reasons := safety_reasons
    graham_number := graham
    current_price := metrics.current_price
    margin_of_safety_pct := mos
    metrics := some metrics
    fail_reasons := fail_reasons }

/-- Python f-string interpolation of an optional string: None prints "None". -/
def optStr (s : Option String) : String :=
  match s with
  | some v => v
  | none => "None"

/-- The error entry built for an invalid record
(screen_batch_dual_track lines 332-341). -/
def errorResult (m : TickerMetrics) : SectorScreeningResult :=
  { symbol := m.symbol
    passed := false
    screening_mode := "error"
    metrics := some m
    fail_reasons := ["資料抓取失敗: " ++ optStr m.fetch_error] }

/-- The unsorted result list of screen_batch_dual_track: one entry per valid
record, in sector-group insertion order, followed by one error entry per
invalid record in input order (lines 245-341). -/
noncomputable def rawResults (metrics_list : List TickerMetrics)
    (thresholds : SectorRelativeThresholds) : List SectorScreeningResult :=
  let valid_metrics := metrics_list.filter (fun m => m.is_valid)
  let invalid_metrics := metrics_list.filter (fun m => !m.is_valid)
  ((_group_by_sector valid_metrics).flatMap
      (fun sg => sg.2.map (screenOne sg.2 thresholds))) ++
    invalid_metrics.map errorResult

/-- The sort key of line 346: `r.margin_of_safety_pct or -999`.  By Python
truthiness a missing margin and a margin equal to 0.0 both yield -999. -/
noncomputable def sortKey (r : SectorScreeningResult) : ℝ :=
  match r.margin_of_safety_pct with
  | some v => if v = 0 then -999 else v
  | none => -999

/-- The ordering used by `passed.sort(key=..., reverse=True)`: a stable
descending comparison on the sort key. -/
def descRel (key : SectorScreeningResult → ℝ)
    (a b : SectorScreeningResult) : Prop :=
  key b ≤ key a

noncomputable instance (key : SectorScreeningResult → ℝ) :
    DecidableRel (descRel key) :=
  fun a b => Real.decidableLE (key b) (key a)

instance (key : SectorScreeningResult → ℝ) : IsTotal SectorScreeningResult (descRel key) :=
  ⟨fun a b => le_total (key b) (key a)⟩

instance (key : SectorScreeningResult → ℝ) : IsTrans SectorScreeningResult (descRel key) :=
  ⟨fun _ _ _ h1 h2 => le_trans h2 h1⟩

/-- sector_screener.py screen_batch_dual_track (lines 229-348): build the
per-record results, then return the passed entries, stably sorted by
descending margin-of-safety key, followed by the failed entries in
insertion order. -/
noncomputable def screen_batch_dual_track (metrics_list : List TickerMetrics)
    (thresholds : SectorRelativeThresholds := DEFAULT_SECTOR_THRESHOLDS) :
    List SectorScreeningResult :=
  (((rawResults metrics_list thresholds).filter
      (fun r => r.passed)).insertionSort (descRel sortKey)) ++
    (rawResults metrics_list thresholds).filter (fun r => !r.passed)

/-- Look up the member list of a sector key in the grouped structure
(first entry with that key, or the empty list). -/
def findGroup (gs : List (String × List TickerMetrics)) (s : String) :
    List TickerMetrics :=
  match gs.find? (fun pr => decide (pr.1 = s)) with
  | some pr => pr.2
  | none => []

/-- The sector peer group the engine uses for a record: the group built by
_group_by_sector over the valid records that carries the label of the record. -/
def sectorGroupOf (metrics_list : List TickerMetrics) (m : TickerMetrics) :
    List TickerMetrics :=
  findGroup (_group_by_sector (metrics_list.filter (fun x => x.is_valid)))
    (sectorLabel m)

/-- At least one of the four percentile ranks is defined. -/
def ranksDefined (P : SectorPercentiles) : Prop :=
  P.pe_percentile ≠ none ∨ P.peg_percentile ≠ none ∨
    P.roe_percentile ≠ none ∨ P.de_percentile ≠ none

/-- Every defined percentile rank is at most the cutoff. -/
def ranksWithin (P : SectorPercentiles) (t : ℚ) : Prop :=
  (∀ v, P.pe_percentile = some v → v ≤ t) ∧
  (∀ v, P.peg_percentile = some v → v ≤ t) ∧
  (∀ v, P.roe_percentile = some v → v ≤ t) ∧
  (∀ v, P.de_percentile = some v → v ≤ t)

/-- The directional rule of the spec: peer w beats target v when it is
strictly lower (lower_is_better) or strictly higher (otherwise). -/
def betterThan (lower_is_better : Bool) (w v : ℚ) : Prop :=
  if lower_is_better then w < v else v < w

/-- Present and at or above a ceiling (the P/E and PEG violation shape). -/
def failsGE (x : Option ℚ) (c : ℚ) : Bool :=
  match x with
  | some v => decide (c ≤ v)
  | none => false

/-- Present and strictly below a floor (the ROE violation shape). -/
def failsLT (x : Option ℚ) (c : ℚ) : Bool :=
  match x with
  | some v => decide (v < c)
  | none => false

/-- Present and strictly above a ceiling (the D/E violation shape). -/
def failsGT (x : Option ℚ) (c : ℚ) : Bool :=
  match x with
  | some v => decide (c < v)
  | none => false

/-- Five valid records sharing one sector, used as concrete inputs. -/
def wRec (s : String) : TickerMetrics :=
  { symbol := s, trailing_eps := some 1, sector := some "T" }

/-- A five-member sector batch (meets the default minimum sector size). -/
def wList : List TickerMetrics :=
  [wRec "A", wRec "B", wRec "C", wRec "D", wRec "E"]

/-- A single-member batch (below the default minimum sector size). -/
def wSmallList : List TickerMetrics := [wRec "S"]

/-- A record whose fetch failed, used as a concrete input. -/
def wBad : TickerMetrics := { symbol := "X", fetch_error := some "boom" }

/-- The nested sector_percentiles object of the JSON shape
(sector_screener.py to_dict lines 76-85). -/
structure SectorPercentilesDict where
  pe_percentile : Option ℚ
  peg_percentile : Option ℚ
  roe_percentile : Option ℚ
  de_percentile : Option ℚ
  sector : String
  sector_count : ℕ
deriving DecidableEq

/-- The nested metrics echo of the JSON shape (to_dict lines 89-101).
The Python key `peg_ratio` is the field `peg` here. -/
structure MetricsDict where
  trailing_pe : Option ℚ
  peg : Option ℚ
  roe : Option ℚ
  debt_to_equity : Option ℚ
  trailing_eps : Option ℚ
  book_value : Option ℚ
  sector : Option String
  industry : Option String
  company_name : Option String
deriving DecidableEq

/-- The flat JSON object produced by SectorScreeningResult.to_dict
(lines 66-102), with one field per JSON key. -/
structure ResultDict where
  symbol : String
  passed : Bool
  screening_mode : String
  graham_number : Option ℝ
  current_price : Option ℚ
  margin_of_safety_pct : Option ℝ
  fail_reasons : List String
  sector_percentiles : Option SectorPercentilesDict
  passed_sector_filter : Bool
  passed_safety_filter : Bool
  safety_fail_reasons : List String
  metrics : Option MetricsDict

/-- sector_screener.py SectorScreeningResult.to_dict (lines 66-102). -/
def SectorScreeningResult.to_dict (r : SectorScreeningResult) : ResultDict :=
  { symbol := r.symbol
    passed := r.passed
    screening_mode := r.screening_mode
    graham_number := r.graham_number
    current_price := r.current_price
    margin_of_safety_pct := r.margin_of_safety_pct
    fail_reasons := r.fail_reasons
    sector_percentiles :=
      r.sector_percentiles.map (fun sp =>
        { pe_percentile := sp.pe_percentile
          peg_percentile := sp.peg_percentile
          roe_percentile := sp.roe_percentile
          de_percentile := sp.de_percentile
          sector := sp.sector
          sector_count := sp.sector_count })
    passed_sector_filter := r.passed_sector_filter
    passed_safety_filter := r.passed_safety_filter
    safety_fail_reasons := r.safety_fail_reasons
    metrics :=
      r.metrics.map (fun m =>
        { trailing_pe := m.trailing_pe
          peg := m.peg
          roe := m.roe
          debt_to_equity := m.debt_to_equity
          trailing_eps := m.trailing_eps
          book_value := m.book_value
          sector := m.sector
          industry := m.industry
          company_name := m.company_name }) }

/-- Modelled from the spec: the repository persists the to_dict JSON shape
through the results store and reads it back as plain dictionaries for the
dashboard and report collaborators, but contains no typed decoder for a
SectorScreeningResult; the round-trip property of the spec needs one.
Each field of the JSON object is read back into the result; the metrics
echo is rebuilt with the top-level symbol and with the fields the echo
does not carry left absent. -/
def resultFromDict (d : ResultDict) : SectorScreeningResult :=
  { symbol := d.symbol
    passed := d.passed
    screening_mode := d.screening_mode
    sector_percentiles :=
      d.sector_percentiles.map (fun sp =>
        { pe_percentile := sp.pe_percentile
          peg_percentile := sp.peg_percentile
          roe_percentile := sp.roe_percentile
          de_percentile := sp.de_percentile
          sector := sp.sector
          sector_count := sp.sector_count })
    passed_sector_filter := d.passed_sector_filter
    passed_safety_filter := d.passed_safety_filter
    safety_fail_reasons := d.safety_fail_reasons
    graham_number := d.graham_number
    current_price := d.current_price
    margin_of_safety_pct := d.margin_of_safety_pct
    metrics :=
      d.metrics.map (fun md =>
        { symbol := d.symbol
          trailing_pe := md.trailing_pe
          peg := md.peg
          roe := md.roe
          debt_to_equity := md.debt_to_equity
          trailing_eps := md.trailing_eps
          book_value := md.book_value
          sector := md.sector
          industry := md.industry
          company_name := md.company_name })
    fail_reasons := d.fail_reasons }

/-- A record with positive EPS and book value and a price of exactly 0. -/
def wPriceZero : TickerMetrics :=
  { symbol := "Z", trailing_eps := some (8 / 5), book_value := some 1,
    current_price := some 0 }

/-- A record with positive EPS, book value and price. -/
def wGraham : TickerMetrics :=
  { symbol := "W", trailing_eps := some (8 / 5), book_value := some 1,
    current_price := some 3 }

/-- Claim C1 exactly as stated: passed results precede failed results; for
any two distinct passed results with defined margins, the first precedes
the second iff its margin is at least the second margin; passed results
with no margin sort after every passed result with a margin; failed
results keep insertion order. -/
def C1Prop (metrics_list : List TickerMetrics)
    (th : SectorRelativeThresholds) : Prop :=
  (∀ i j (hi : i < (screen_batch_dual_track metrics_list th).length)
      (hj : j < (screen_batch_dual_track metrics_list th).length), i < j →
      ((screen_batch_dual_track metrics_list th).get ⟨j, hj⟩).passed = true →
      ((screen_batch_dual_track metrics_list th).get ⟨i, hi⟩).passed = true) ∧
  (∀ i j (hi : i < (screen_batch_dual_track metrics_list th).length)
      (hj : j < (screen_batch_dual_track metrics_list th).length), i ≠ j →
      ((screen_batch_dual_track metrics_list th).get ⟨i, hi⟩).passed = true →
      ((screen_batch_dual_track metrics_list th).get ⟨j, hj⟩).passed = true →
      ∀ a b,
        ((screen_batch_dual_track metrics_list th).get
          ⟨i, hi⟩).margin_of_safety_pct = some a →
        ((screen_batch_dual_track metrics_list th).get
          ⟨j, hj⟩).margin_of_safety_pct = some b →
        (i < j ↔ b ≤ a)) ∧
  (∀ i j (hi : i < (screen_batch_dual_track metrics_list th).length)
      (hj : j < (screen_batch_dual_track metrics_list th).length),
      ((screen_batch_dual_track metrics_list th).get ⟨i, hi⟩).passed = true →
      ((screen_batch_dual_track metrics_list th).get ⟨j, hj⟩).passed = true →
      ((screen_batch_dual_track metrics_list th).get
        ⟨i, hi⟩).margin_of_safety_pct = none →
      ((screen_batch_dual_track metrics_list th).get
        ⟨j, hj⟩).margin_of_safety_pct ≠ none → j < i) ∧
  ((screen_batch_dual_track metrics_list th).filter (fun r => !r.passed) =
    (rawResults metrics_list th).filter (fun r => !r.passed))

/-- A passed record whose margin of safety is exactly 0
(price equals the Graham number). -/
def mA : TickerMetrics :=
  { symbol := "A", trailing_eps := some (8 / 5), book_value := some 1,
    current_price := some 6 }

/-- A passed record whose margin of safety is -5 percent. -/
def mB : TickerMetrics :=
  { symbol := "B", trailing_eps := some (8 / 5), book_value := some 1,
    current_price := some (63 / 10) }

/-- The sort key agreeing with a given value, decided classically (used
only inside theorem statements about stability). -/
noncomputable def marginKeyIs (c : ℝ) (r : SectorScreeningResult) : Bool :=
  @decide (sortKey r = c) (Classical.dec _)

/-! ### Theorems -/

/-! ### Helper definitions used by the theorem statements -/

/-! ### Grouping lemmas -/

theorem findGroup_nil (s : String) : findGroup [] s = [] := rfl

theorem findGroup_cons (k : String) (v : List TickerMetrics)
    (rest : List (String × List TickerMetrics)) (s : String) :
    findGroup ((k, v) :: rest) s = if k = s then v else findGroup rest s := by
  unfold findGroup
  by_cases h : k = s
  · rw [List.find?_cons_of_pos _ (by simpa using h), if_pos h]
  · rw [List.find?_cons_of_neg _ (by simpa using h), if_neg h]

theorem addToGroups_cons (k : String) (v : List TickerMetrics)
    (rest : List (String × List TickerMetrics)) (s : String)
    (m : TickerMetrics) :
    addToGroups ((k, v) :: rest) s m =
      if k = s then (k, v ++ [m]) :: rest
      else (k, v) :: addToGroups rest s m := rfl

theorem findGroup_addToGroups (gs : List (String × List TickerMetrics))
    (s s' : String) (m : TickerMetrics) :
    findGroup (addToGroups gs s m) s' =
      if s' = s then findGroup gs s' ++ [m] else findGroup gs s' := by
  induction gs with
  | nil =>
    by_cases h : s' = s
    · subst h; simp [addToGroups, findGroup_cons, findGroup_nil]
    · simp only [addToGroups, findGroup_cons, findGroup_nil,
        if_neg (fun hh => h (Eq.symm hh)), if_neg h]
  | cons kv rest ih =>
    obtain ⟨k, v⟩ := kv
    by_cases hks : k = s
    · subst hks
      rw [addToGroups_cons, if_pos rfl, findGroup_cons, findGroup_cons]
      by_cases h : k = s'
      · subst h; simp
      · have h2 : ¬s' = k := fun hh => h (Eq.symm hh)
        rw [if_neg h, if_neg h, if_neg h2]
    · rw [addToGroups_cons, if_neg hks, findGroup_cons, findGroup_cons, ih]
      by_cases h : k = s'
      · have hss : ¬s' = s := fun hh => hks (Eq.symm h ▸ hh)
        rw [if_pos h, if_pos h, if_neg hss]
      · rw [if_neg h, if_neg h]

theorem findGroup_foldl (ms : List TickerMetrics) :
    ∀ (gs : List (String × List TickerMetrics)) (s : String),
      findGroup (ms.foldl (fun gs m => addToGroups gs (sectorLabel m) m) gs) s =
        findGroup gs s ++ ms.filter (fun x => decide (sectorLabel x = s)) := by
  induction ms with
  | nil => intro gs s; simp
  | cons m ms ih =>
    intro gs s
    rw [List.foldl_cons, ih, findGroup_addToGroups, List.filter_cons]
    by_cases h : sectorLabel m = s
    · rw [if_pos (Eq.symm h)]
      simp [h]
    · rw [if_neg (fun h' => h (Eq.symm h'))]
      simp [h]

theorem sectorGroupOf_eq_filter (metrics_list : List TickerMetrics)
    (m : TickerMetrics) :
    sectorGroupOf metrics_list m =
      (metrics_list.filter (fun x => x.is_valid)).filter
        (fun x => decide (sectorLabel x = sectorLabel m)) := by
  unfold sectorGroupOf _group_by_sector
  rw [findGroup_foldl, findGroup_nil, List.nil_append]

theorem flatMap_addToGroups (gs : List (String × List TickerMetrics))
    (s : String) (m : TickerMetrics) :
    List.Perm ((addToGroups gs s m).flatMap (fun pr => pr.2))
      ((gs.flatMap (fun pr => pr.2)) ++ [m]) := by
  induction gs with
  | nil => simp [addToGroups]
  | cons kv rest ih =>
    obtain ⟨k, v⟩ := kv
    by_cases hks : k = s
    · subst hks
      rw [addToGroups_cons, if_pos rfl]
      simp only [List.flatMap_cons, List.append_assoc]
      exact List.Perm.append_left v List.perm_append_comm
    · rw [addToGroups_cons, if_neg hks]
      simp only [List.flatMap_cons, List.append_assoc]
      exact List.Perm.append_left v ih

theorem flatMap_foldl (ms : List TickerMetrics) :
    ∀ gs : List (String × List TickerMetrics),
      List.Perm
        ((ms.foldl (fun gs m => addToGroups gs (sectorLabel m) m) gs).flatMap
          (fun pr => pr.2))
        ((gs.flatMap (fun pr => pr.2)) ++ ms) := by
  induction ms with
  | nil => intro gs; simp
  | cons m ms ih =>
    intro gs
    rw [List.foldl_cons]
    refine (ih (addToGroups gs (sectorLabel m) m)).trans ?_
    refine (((flatMap_addToGroups gs (sectorLabel m) m).append_right ms).trans ?_)
    rw [List.append_assoc]
    exact List.Perm.refl _

theorem flatMap_group_by_sector (ms : List TickerMetrics) :
    List.Perm ((_group_by_sector ms).flatMap (fun pr => pr.2)) ms := by
  simpa [_group_by_sector] using flatMap_foldl ms []

/-! ### Projections of the combiner output -/

theorem screenOne_symbol (g : List TickerMetrics)
    (th : SectorRelativeThresholds) (m : TickerMetrics) :
    (screenOne g th m).symbol = m.symbol := by
  simp [screenOne]

theorem screenOne_metrics (g : List TickerMetrics)
    (th : SectorRelativeThresholds) (m : TickerMetrics) :
    (screenOne g th m).metrics = some m := by
  simp [screenOne]

theorem screenOne_percentiles (g : List TickerMetrics)
    (th : SectorRelativeThresholds) (m : TickerMetrics) :
    (screenOne g th m).sector_percentiles =
      some (_calculate_sector_percentiles m g) := by
  simp [screenOne]

theorem screenOne_safety (g : List TickerMetrics)
    (th : SectorRelativeThresholds) (m : TickerMetrics) :
    (screenOne g th m).passed_safety_filter = (_apply_safety_filter m th).1 := by
  simp [screenOne]

theorem screenOne_passed_eq (g : List TickerMetrics)
    (th : SectorRelativeThresholds) (m : TickerMetrics) :
    (screenOne g th m).passed =
      ((screenOne g th m).passed_safety_filter &&
        (screenOne g th m).passed_sector_filter) := by
  simp [screenOne]

theorem screenOne_mode_large (g : List TickerMetrics)
    (th : SectorRelativeThresholds) (m : TickerMetrics)
    (h : th.min_sector_size ≤ g.length) :
    (screenOne g th m).screening_mode = "dual_track" := by
  simp [screenOne, h]

theorem screenOne_mode_small (g : List TickerMetrics)
    (th : SectorRelativeThresholds) (m : TickerMetrics)
    (h : g.length < th.min_sector_size) :
    (screenOne g th m).screening_mode = "safety_only" := by
  simp [screenOne, Nat.not_le.mpr h]

theorem screenOne_sector_large (g : List TickerMetrics)
    (th : SectorRelativeThresholds) (m : TickerMetrics)
    (h : th.min_sector_size ≤ g.length) :
    (screenOne g th m).passed_sector_filter =
      ((!(pctChecks (_calculate_sector_percentiles m g)
            th.sector_percentile_threshold).isEmpty) &&
        (pctChecks (_calculate_sector_percentiles m g)
            th.sector_percentile_threshold).all id) := by
  simp [screenOne, h]

theorem screenOne_sector_small (g : List TickerMetrics)
    (th : SectorRelativeThresholds) (m : TickerMetrics)
    (h : g.length < th.min_sector_size) :
    (screenOne g th m).passed_sector_filter = true := by
  simp [screenOne, Nat.not_le.mpr h]

theorem screenOne_graham (g : List TickerMetrics)
    (th : SectorRelativeThresholds) (m : TickerMetrics) :
    (screenOne g th m).graham_number = grahamOf th m := by
  simp [screenOne]

theorem screenOne_mos (g : List TickerMetrics)
    (th : SectorRelativeThresholds) (m : TickerMetrics) :
    (screenOne g th m).margin_of_safety_pct = mosOf th m := by
  simp [screenOne]

/-- The Track-1 boolean of the source is exactly the spec predicate:
at least one defined rank, and every defined rank within the cutoff. -/
theorem pct_spec (P : SectorPercentiles) (t : ℚ) :
    (((!(pctChecks P t).isEmpty) && (pctChecks P t).all id) = true) ↔
      (ranksDefined P ∧ ranksWithin P t) := by
  cases hpe : P.pe_percentile <;> cases hpeg : P.peg_percentile <;>
    cases hroe : P.roe_percentile <;> cases hde : P.de_percentile <;>
      simp [pctChecks, ranksDefined, ranksWithin, hpe, hpeg, hroe, hde]

/-! ### Membership of combiner results in the batch output -/

theorem mem_sectorGroupOf (metrics_list : List TickerMetrics)
    (m : TickerMetrics) (hm : m ∈ metrics_list) (hv : m.is_valid = true) :
    m ∈ sectorGroupOf metrics_list m := by
  rw [sectorGroupOf_eq_filter]
  exact List.mem_filter.mpr ⟨List.mem_filter.mpr ⟨hm, hv⟩, by simp⟩

theorem exists_group_entry (metrics_list : List TickerMetrics)
    (m : TickerMetrics) (hm : m ∈ metrics_list) (hv : m.is_valid = true) :
    ∃ pr ∈ _group_by_sector (metrics_list.filter (fun x => x.is_valid)),
      pr.2 = sectorGroupOf metrics_list m := by
  have hmem : m ∈ sectorGroupOf metrics_list m := mem_sectorGroupOf _ _ hm hv
  unfold sectorGroupOf at hmem ⊢
  set G := _group_by_sector (metrics_list.filter (fun x => x.is_valid)) with hG
  cases hfind : G.find? (fun pr => decide (pr.1 = sectorLabel m)) with
  | none =>
    rw [findGroup, hfind] at hmem
    simp at hmem
  | some pr =>
    refine ⟨pr, List.mem_of_find?_eq_some hfind, ?_⟩
    rw [findGroup, hfind]

theorem screenOne_mem_rawResults (metrics_list : List TickerMetrics)
    (th : SectorRelativeThresholds) (m : TickerMetrics)
    (hm : m ∈ metrics_list) (hv : m.is_valid = true) :
    screenOne (sectorGroupOf metrics_list m) th m ∈ rawResults metrics_list th := by
  obtain ⟨pr, hpr, hpr2⟩ := exists_group_entry metrics_list m hm hv
  unfold rawResults
  refine List.mem_append_left _ ?_
  refine List.mem_flatMap.mpr ⟨pr, hpr, ?_⟩
  rw [hpr2]
  exact List.mem_map_of_mem _ (mem_sectorGroupOf _ _ hm hv)

theorem screen_batch_perm_rawResults (metrics_list : List TickerMetrics)
    (th : SectorRelativeThresholds) :
    List.Perm (screen_batch_dual_track metrics_list th)
      (rawResults metrics_list th) := by
  unfold screen_batch_dual_track
  exact List.Perm.trans ((List.perm_insertionSort _ _).append_right _)
    (List.filter_append_perm _ _)

theorem mem_screen_batch (metrics_list : List TickerMetrics)
    (th : SectorRelativeThresholds) (r : SectorScreeningResult)
    (h : r ∈ rawResults metrics_list th) :
    r ∈ screen_batch_dual_track metrics_list th :=
  (screen_batch_perm_rawResults metrics_list th).mem_iff.mpr h

/-! ### Stability of the descending sort -/

theorem filter_orderedInsert_keyEq (key : SectorScreeningResult → ℝ)
    (p : SectorScreeningResult → Bool) (c : ℝ)
    (hp : ∀ a, p a = true → key a = c) (x : SectorScreeningResult) :
    ∀ l : List SectorScreeningResult,
      (List.orderedInsert (descRel key) x l).filter p =
        if p x then x :: l.filter p else l.filter p := by
  intro l
  induction l with
  | nil => simp [List.orderedInsert, List.filter_cons]
  | cons b l ih =>
    by_cases h : descRel key x b
    · simp only [List.orderedInsert, if_pos h, List.filter_cons]
    · by_cases hb : p b = true
      · have hxf : ¬p x = true := by
          intro hx
          exact h (le_of_eq ((hp b hb).trans (hp x hx).symm))
        simp [List.orderedInsert, h, List.filter_cons, hb, hxf, ih]
      · simp [List.orderedInsert, h, List.filter_cons, hb, ih]

theorem filter_insertionSort_keyEq (key : SectorScreeningResult → ℝ)
    (p : SectorScreeningResult → Bool) (c : ℝ)
    (hp : ∀ a, p a = true → key a = c) :
    ∀ l : List SectorScreeningResult,
      (l.insertionSort (descRel key)).filter p = l.filter p := by
  intro l
  induction l with
  | nil => rfl
  | cons a l ih =>
    rw [List.insertionSort, filter_orderedInsert_keyEq key p c hp, ih,
      List.filter_cons]

/-! ### Symbol bookkeeping -/

theorem rawResults_symbols_perm (metrics_list : List TickerMetrics)
    (th : SectorRelativeThresholds) :
    List.Perm ((rawResults metrics_list th).map (fun r => r.symbol))
      (metrics_list.map (fun m => m.symbol)) := by
  unfold rawResults
  rw [List.map_append]
  have hmain :
      (((_group_by_sector (metrics_list.filter (fun x => x.is_valid))).flatMap
          (fun sg => sg.2.map (screenOne sg.2 th))).map (fun r => r.symbol)) =
        (((_group_by_sector (metrics_list.filter (fun x => x.is_valid))).flatMap
          (fun pr => pr.2)).map (fun m => m.symbol)) := by
    rw [List.map_flatMap, List.map_flatMap]
    simp only [List.map_map]
    rfl
  have herr :
      (((metrics_list.filter (fun m => !m.is_valid)).map errorResult).map
          (fun r => r.symbol)) =
        ((metrics_list.filter (fun m => !m.is_valid)).map
          (fun m => m.symbol)) := by
    rw [List.map_map]
    rfl
  rw [hmain, herr]
  refine List.Perm.trans
    (((flatMap_group_by_sector _).map (fun m => m.symbol)).append_right _) ?_
  rw [← List.map_append]
  exact (List.filter_append_perm (fun x => x.is_valid) metrics_list).map _

theorem screenOne_mode_ne_error (g : List TickerMetrics)
    (th : SectorRelativeThresholds) (m : TickerMetrics) :
    (screenOne g th m).screening_mode ≠ "error" := by
  by_cases h : th.min_sector_size ≤ g.length
  · rw [screenOne_mode_large _ _ _ h]; simp
  · rw [screenOne_mode_small _ _ _ (Nat.lt_of_not_le h)]; simp

theorem errorResult_mode (m : TickerMetrics) :
    (errorResult m).screening_mode = "error" := rfl

theorem errorResult_passed (m : TickerMetrics) :
    (errorResult m).passed = false := rfl

theorem rawResults_error_passed (metrics_list : List TickerMetrics)
    (th : SectorRelativeThresholds) (r : SectorScreeningResult)
    (hr : r ∈ rawResults metrics_list th)
    (he : r.screening_mode = "error") : r.passed = false := by
  unfold rawResults at hr
  rcases List.mem_append.mp hr with hleft | hright
  · obtain ⟨sg, _, hmem⟩ := List.mem_flatMap.mp hleft
    obtain ⟨m, _, rfl⟩ := List.mem_map.mp hmem
    exact absurd he (screenOne_mode_ne_error _ _ _)
  · obtain ⟨m, _, rfl⟩ := List.mem_map.mp hright
    rfl

theorem rawResults_error_filter (metrics_list : List TickerMetrics)
    (th : SectorRelativeThresholds) :
    (rawResults metrics_list th).filter
        (fun r => decide (r.screening_mode = "error")) =
      (metrics_list.filter (fun m => !m.is_valid)).map errorResult := by
  unfold rawResults
  rw [List.filter_append]
  have hleft :
      (((_group_by_sector (metrics_list.filter (fun x => x.is_valid))).flatMap
          (fun sg => sg.2.map (screenOne sg.2 th))).filter
        (fun r => decide (r.screening_mode = "error"))) = [] := by
    rw [List.filter_eq_nil_iff]
    intro r hr
    obtain ⟨sg, _, hmem⟩ := List.mem_flatMap.mp hr
    obtain ⟨m, _, rfl⟩ := List.mem_map.mp hmem
    simpa using screenOne_mode_ne_error sg.2 th m
  have hright :
      (((metrics_list.filter (fun m => !m.is_valid)).map errorResult).filter
        (fun r => decide (r.screening_mode = "error"))) =
      ((metrics_list.filter (fun m => !m.is_valid)).map errorResult) := by
    rw [List.filter_eq_self]
    intro r hr
    obtain ⟨m, _, rfl⟩ := List.mem_map.mp hr
    simp [errorResult_mode]
  rw [hleft, hright, List.nil_append]

/-! ### Claims C3 and C4: the percentile ranker -/

theorem countP_le_length_sub_one (value : ℚ) (l : List ℚ) (p : ℚ → Bool)
    (hv : value ∈ l) (hp : p value = false) : l.countP p ≤ l.length - 1 := by
  have htot := List.length_eq_countP_add_countP (l := l) p
  have hpos : 0 < l.countP (fun a => !p a) :=
    List.countP_pos_iff.mpr ⟨value, hv, by simp [hp]⟩
  have hle : l.countP (fun a => decide (¬p a = true)) =
      l.countP (fun a => !p a) := by
    refine List.countP_congr (fun a _ => ?_)
    cases hpa : p a <;> simp [hpa]
  omega

/-- Claim C3 counterexample: when the target value does not occur in the
peer list the rank can leave the unit interval; for target 100 against
peers [1, 2] with lower_is_better the rank is 2. -/
theorem C3_rank_out_of_range :
    _compute_metric_rank 100 [1, 2] true = 2 ∧
      ¬_compute_metric_rank 100 [1, 2] true ≤ 1 := by
  constructor <;>
    norm_num [_compute_metric_rank, List.countP_cons, List.countP_nil]

/-- Claim C3 (amended): the rank is 0 for peer lists of size at most one,
equals better_count / (N - 1) for larger lists, and lies in [0, 1]
provided the target value occurs in the peer list (as it always does for
the screener, which ranks a member of the group). -/
theorem C3_rank_formula (value : ℚ) (all_values : List ℚ)
    (lower_is_better : Bool) :
    (all_values.length ≤ 1 →
      _compute_metric_rank value all_values lower_is_better = 0) ∧
    (2 ≤ all_values.length →
      _compute_metric_rank value all_values lower_is_better =
        ((if lower_is_better then
            all_values.countP (fun v => decide (v < value))
          else
            all_values.countP (fun v => decide (value < v)) : ℕ) : ℚ) /
          ((all_values.length : ℚ) - 1)) ∧
    (value ∈ all_values →
      0 ≤ _compute_metric_rank value all_values lower_is_better ∧
        _compute_metric_rank value all_values lower_is_better ≤ 1) := by
  refine ⟨fun h => by simp [_compute_metric_rank, h], fun h => ?_, fun hv => ?_⟩
  · have h1 : ¬all_values.length ≤ 1 := by omega
    rw [_compute_metric_rank, if_neg h1]
    cases lower_is_better <;> simp
  · by_cases h1 : all_values.length ≤ 1
    · simp [_compute_metric_rank, h1]
    · have hlen : 2 ≤ all_values.length := by omega
      have hden : (0 : ℚ) < (all_values.length : ℚ) - 1 := by
        have : (2 : ℚ) ≤ (all_values.length : ℚ) := by exact_mod_cast hlen
        linarith
      rw [_compute_metric_rank, if_neg h1]
      have hboth : ∀ p : ℚ → Bool, p value = false →
          0 ≤ ((all_values.countP p : ℕ) : ℚ) / ((all_values.length : ℚ) - 1) ∧
          ((all_values.countP p : ℕ) : ℚ) / ((all_values.length : ℚ) - 1) ≤ 1 := by
        intro p hp
        constructor
        · positivity
        · rw [div_le_one hden]
          have hcnt := countP_le_length_sub_one value all_values p hv hp
          have : ((all_values.countP p : ℕ) : ℚ) ≤
              ((all_values.length - 1 : ℕ) : ℚ) := by exact_mod_cast hcnt
          have hcast : ((all_values.length - 1 : ℕ) : ℚ) =
              (all_values.length : ℚ) - 1 := by
            have h1' : 1 ≤ all_values.length := by omega
            rw [Nat.cast_sub h1']
            norm_num
          linarith
      cases lower_is_better
      · simpa using hboth (fun v => decide (value < v)) (by simp)
      · simpa using hboth (fun v => decide (v < value)) (by simp)

/-- Claim C3 witness: a rank at a member of the peer list stays in [0, 1]. -/
theorem C3_rank_formula_witness :
    0 ≤ _compute_metric_rank 2 [1, 2] true ∧
      _compute_metric_rank 2 [1, 2] true ≤ 1 :=
  (C3_rank_formula 2 [1, 2] true).2.2 (by norm_num)

/-- Claim C4 counterexample: in the peer list [5, 5] the value 5 is the
worst under lower_is_better (nothing is higher), yet its rank is 0, not 1:
tied worst values do not receive rank 1.0. -/
theorem C4_worst_tie_not_one :
    (5 : ℚ) ∈ [(5 : ℚ), 5] ∧ (∀ w ∈ [(5 : ℚ), 5], w ≤ 5) ∧
      2 ≤ ([(5 : ℚ), 5]).length ∧
      _compute_metric_rank 5 [5, 5] true = 0 ∧
      _compute_metric_rank 5 [5, 5] true ≠ 1 := by
  refine ⟨by norm_num, ?_, by norm_num,
    by norm_num [_compute_metric_rank, List.countP_cons, List.countP_nil],
    by norm_num [_compute_metric_rank, List.countP_cons, List.countP_nil]⟩
  intro w hw
  simp at hw
  subst hw
  exact le_refl _

/-- Claim C4 (amended): for peer lists of size at least 2, a value that no
peer beats under the directional rule receives rank 0.0, and the worst
value receives rank 1.0 provided it is the unique worst (it occurs once
and every other peer beats it); a tied worst value receives a rank
strictly below 1. -/
theorem C4_extremes (all_values : List ℚ) (v : ℚ) (lower_is_better : Bool)
    (hlen : 2 ≤ all_values.length) :
    ((∀ w ∈ all_values, ¬betterThan lower_is_better w v) →
        _compute_metric_rank v all_values lower_is_better = 0) ∧
    (all_values.count v = 1 →
      (∀ w ∈ all_values, w = v ∨ betterThan lower_is_better w v) →
        _compute_metric_rank v all_values lower_is_better = 1) := by
  have h1 : ¬all_values.length ≤ 1 := by omega
  constructor
  · intro hbest
    rw [_compute_metric_rank, if_neg h1]
    cases lower_is_better
    · have : all_values.countP (fun w => decide (v < w)) = 0 := by
        rw [List.countP_eq_zero]
        intro w hw
        simpa [betterThan] using hbest w hw
      simp [this]
    · have : all_values.countP (fun w => decide (w < v)) = 0 := by
        rw [List.countP_eq_zero]
        intro w hw
        simpa [betterThan] using hbest w hw
      simp [this]
  · intro hcount hworst
    rw [_compute_metric_rank, if_neg h1]
    have key : ∀ p : ℚ → Bool, (∀ w ∈ all_values, p w = !decide (w = v)) →
        ((all_values.countP p : ℕ) : ℚ) / ((all_values.length : ℚ) - 1) = 1 := by
      intro p hpw
      have hcp : all_values.countP p =
          all_values.countP (fun w => !decide (w = v)) :=
        List.countP_congr (fun w hw => by rw [hpw w hw])
      have htot := List.length_eq_countP_add_countP
        (l := all_values) (fun w => decide (w = v))
      have hc2 : all_values.countP
          (fun a => decide (¬(decide (a = v)) = true)) =
          all_values.countP (fun w => !decide (w = v)) := by
        refine List.countP_congr (fun a _ => ?_)
        by_cases ha : a = v <;> simp [ha]
      have hcv : all_values.countP (fun w => decide (w = v)) =
          all_values.count v := by
        refine List.countP_congr (fun a _ => ?_)
        by_cases ha : a = v <;> simp [ha]
      have hval : all_values.countP p = all_values.length - 1 := by omega
      rw [hval]
      have hcast : ((all_values.length - 1 : ℕ) : ℚ) =
          (all_values.length : ℚ) - 1 := by
        have h1' : 1 ≤ all_values.length := by omega
        rw [Nat.cast_sub h1']
        norm_num
      rw [hcast]
      refine div_self ?_
      have : (2 : ℚ) ≤ (all_values.length : ℚ) := by exact_mod_cast hlen
      intro hzero
      linarith [sub_eq_zero.mp hzero]
    cases lower_is_better
    · refine key (fun w => decide (v < w)) (fun w hw => ?_)
      rcases hworst w hw with rfl | hb
      · simp
      · have hvw : v < w := by simpa [betterThan] using hb
        simp [hvw, ne_of_gt hvw]
    · refine key (fun w => decide (w < v)) (fun w hw => ?_)
      rcases hworst w hw with rfl | hb
      · simp
      · have hvw : w < v := by simpa [betterThan] using hb
        simp [hvw, ne_of_lt hvw]

/-- Claim C4 witness: in peers [1, 2] the value 1 is unbeaten under
lower_is_better and gets rank 0; the value 2 is the unique worst and gets
rank 1. -/
theorem C4_extremes_witness :
    _compute_metric_rank 1 [1, 2] true = 0 ∧
      _compute_metric_rank 2 [1, 2] true = 1 := by
  constructor
  · refine (C4_extremes [1, 2] 1 true (by norm_num)).1 ?_
    intro w hw
    simp at hw
    rcases hw with rfl | rfl <;> norm_num [betterThan]
  · refine (C4_extremes [1, 2] 2 true (by norm_num)).2 (by norm_num) ?_
    intro w hw
    simp at hw
    rcases hw with rfl | rfl <;> norm_num [betterThan]

/-! ### Claim C6: the safety filter -/

theorem peSeg_empty (m : TickerMetrics) (th : SectorRelativeThresholds) :
    peSeg m th = [] ↔ (∀ v, m.trailing_pe = some v → v < th.safety_pe_max) := by
  cases h : m.trailing_pe with
  | none => simp [peSeg, h]
  | some v =>
    by_cases hc : th.safety_pe_max ≤ v
    · simp [peSeg, h, hc, not_lt.mpr hc]
    · simp [peSeg, h, hc, not_le.mp hc]

theorem pegSeg_empty (m : TickerMetrics) (th : SectorRelativeThresholds) :
    pegSeg m th = [] ↔ (∀ v, m.peg = some v → v < th.safety_peg_max) := by
  cases h : m.peg with
  | none => simp [pegSeg, h]
  | some v =>
    by_cases hc : th.safety_peg_max ≤ v
    · simp [pegSeg, h, hc, not_lt.mpr hc]
    · simp [pegSeg, h, hc, not_le.mp hc]

theorem roeSeg_empty (m : TickerMetrics) (th : SectorRelativeThresholds) :
    roeSeg m th = [] ↔ (∀ v, m.roe = some v → th.safety_roe_min ≤ v) := by
  cases h : m.roe with
  | none => simp [roeSeg, h]
  | some v =>
    by_cases hc : v < th.safety_roe_min
    · simp [roeSeg, h, hc, not_le.mpr hc]
    · simp [roeSeg, h, hc, not_lt.mp hc]

theorem deSeg_empty (m : TickerMetrics) (th : SectorRelativeThresholds) :
    deSeg m th = [] ↔ (∀ v, m.debt_to_equity = some v → v ≤ th.safety_de_max) := by
  cases h : m.debt_to_equity with
  | none => simp [deSeg, h]
  | some v =>
    by_cases hc : th.safety_de_max < v
    · simp [deSeg, h, hc, not_le.mpr hc]
    · simp [deSeg, h, hc, not_lt.mp hc]

theorem peSeg_length (m : TickerMetrics) (th : SectorRelativeThresholds) :
    (peSeg m th).length = if failsGE m.trailing_pe th.safety_pe_max then 1 else 0 := by
  cases h : m.trailing_pe <;> simp [peSeg, failsGE, h, apply_ite List.length]

theorem pegSeg_length (m : TickerMetrics) (th : SectorRelativeThresholds) :
    (pegSeg m th).length = if failsGE m.peg th.safety_peg_max then 1 else 0 := by
  cases h : m.peg <;> simp [pegSeg, failsGE, h, apply_ite List.length]

theorem roeSeg_length (m : TickerMetrics) (th : SectorRelativeThresholds) :
    (roeSeg m th).length = if failsLT m.roe th.safety_roe_min then 1 else 0 := by
  cases h : m.roe <;> simp [roeSeg, failsLT, h, apply_ite List.length]

theorem deSeg_length (m : TickerMetrics) (th : SectorRelativeThresholds) :
    (deSeg m th).length = if failsGT m.debt_to_equity th.safety_de_max then 1 else 0 := by
  cases h : m.debt_to_equity <;> simp [deSeg, failsGT, h, apply_ite List.length]

/-- Claim C6: the safety filter checks each present metric independently,
passing requires P/E < ceiling, PEG < ceiling, ROE at least the floor and
D/E at most the ceiling; it returns one reason per violated rule (all of
them, and never one for an absent metric), and passes iff that list is
empty. -/
theorem C6_safety_filter (m : TickerMetrics) (th : SectorRelativeThresholds) :
    ((_apply_safety_filter m th).1 = true ↔ (_apply_safety_filter m th).2 = []) ∧
    ((_apply_safety_filter m th).1 = true ↔
      ((∀ v, m.trailing_pe = some v → v < th.safety_pe_max) ∧
       (∀ v, m.peg = some v → v < th.safety_peg_max) ∧
       (∀ v, m.roe = some v → th.safety_roe_min ≤ v) ∧
       (∀ v, m.debt_to_equity = some v → v ≤ th.safety_de_max))) ∧
    ((_apply_safety_filter m th).2.length =
      (if failsGE m.trailing_pe th.safety_pe_max then 1 else 0) +
      (if failsGE m.peg th.safety_peg_max then 1 else 0) +
      (if failsLT m.roe th.safety_roe_min then 1 else 0) +
      (if failsGT m.debt_to_equity th.safety_de_max then 1 else 0)) := by
  have hempty : (_apply_safety_filter m th).1 = true ↔
      (_apply_safety_filter m th).2 = [] := by
    simp [_apply_safety_filter]
  refine ⟨hempty, hempty.trans ?_, ?_⟩
  · show (peSeg m th ++ pegSeg m th ++ roeSeg m th ++ deSeg m th = []) ↔ _
    simp only [List.append_eq_nil, peSeg_empty, pegSeg_empty, roeSeg_empty,
      deSeg_empty]
    tauto
  · show (peSeg m th ++ pegSeg m th ++ roeSeg m th ++ deSeg m th).length = _
    simp only [List.length_append, peSeg_length, pegSeg_length, roeSeg_length,
      deSeg_length]

/-! ### Claim C10: one result per input record -/

/-- Claim C10: the batch screener emits exactly one result per input
record; the output has the same length as the input and the multiset of
result symbols is the multiset of input symbols. -/
theorem C10_one_result_per_record (metrics_list : List TickerMetrics)
    (th : SectorRelativeThresholds) :
    List.Perm
        ((screen_batch_dual_track metrics_list th).map (fun r => r.symbol))
        (metrics_list.map (fun m => m.symbol)) ∧
      (screen_batch_dual_track metrics_list th).length = metrics_list.length := by
  have hperm :=
    ((screen_batch_perm_rawResults metrics_list th).map
      (fun r => r.symbol)).trans (rawResults_symbols_perm metrics_list th)
  refine ⟨hperm, ?_⟩
  have hlen := hperm.length_eq
  simpa using hlen

/-! ### Claims C2 and C5: the dual-track combiner -/

/-- Claim C2: for a valid record whose sector group reaches the minimum
population, the combiner produces (inside the batch output) a result in
dual_track mode whose Track-1 flag is true iff at least one percentile
rank is defined and every defined rank is within the cutoff, and whose
overall verdict is the conjunction of the two track flags. -/
theorem C2_dual_track_combiner (metrics_list : List TickerMetrics)
    (th : SectorRelativeThresholds) (m : TickerMetrics)
    (hm : m ∈ metrics_list) (hv : m.is_valid = true)
    (hlarge : th.min_sector_size ≤ (sectorGroupOf metrics_list m).length) :
    screenOne (sectorGroupOf metrics_list m) th m ∈
        screen_batch_dual_track metrics_list th ∧
      (screenOne (sectorGroupOf metrics_list m) th m).screening_mode =
        "dual_track" ∧
      ((screenOne (sectorGroupOf metrics_list m) th m).passed_sector_filter =
          true ↔
        (ranksDefined
            (_calculate_sector_percentiles m (sectorGroupOf metrics_list m)) ∧
          ranksWithin
            (_calculate_sector_percentiles m (sectorGroupOf metrics_list m))
            th.sector_percentile_threshold)) ∧
      ((screenOne (sectorGroupOf metrics_list m) th m).passed = true ↔
        ((screenOne (sectorGroupOf metrics_list m) th m).passed_sector_filter =
            true ∧
          (screenOne (sectorGroupOf metrics_list m) th m).passed_safety_filter =
            true)) := by
  refine ⟨mem_screen_batch _ _ _ (screenOne_mem_rawResults _ _ _ hm hv),
    screenOne_mode_large _ _ _ hlarge, ?_, ?_⟩
  · rw [screenOne_sector_large _ _ _ hlarge]
    exact pct_spec _ _
  · rw [screenOne_passed_eq]
    rw [Bool.and_eq_true]
    tauto

/-- Claim C2 witness: the theorem applied to a concrete five-member batch. -/
theorem C2_dual_track_combiner_witness :
    screenOne (sectorGroupOf wList (wRec "A")) DEFAULT_SECTOR_THRESHOLDS
        (wRec "A") ∈
      screen_batch_dual_track wList DEFAULT_SECTOR_THRESHOLDS :=
  (C2_dual_track_combiner wList DEFAULT_SECTOR_THRESHOLDS (wRec "A")
    (by simp [wList]) rfl (by decide)).1

/-- Claim C5: for a valid record whose sector group is below the minimum
population, the batch output carries a result in safety_only mode whose
Track-1 flag is vacuously true, so the overall verdict coincides with the
Track-2 safety verdict (such a record can only fail on safety). -/
theorem C5_small_sector_safety_only (metrics_list : List TickerMetrics)
    (th : SectorRelativeThresholds) (m : TickerMetrics)
    (hm : m ∈ metrics_list) (hv : m.is_valid = true)
    (hsmall : (sectorGroupOf metrics_list m).length < th.min_sector_size) :
    screenOne (sectorGroupOf metrics_list m) th m ∈
        screen_batch_dual_track metrics_list th ∧
      (screenOne (sectorGroupOf metrics_list m) th m).screening_mode =
        "safety_only" ∧
      (screenOne (sectorGroupOf metrics_list m) th m).passed_sector_filter =
        true ∧
      (screenOne (sectorGroupOf metrics_list m) th m).passed =
        (screenOne (sectorGroupOf metrics_list m) th m).passed_safety_filter := by
  refine ⟨mem_screen_batch _ _ _ (screenOne_mem_rawResults _ _ _ hm hv),
    screenOne_mode_small _ _ _ hsmall,
    screenOne_sector_small _ _ _ hsmall, ?_⟩
  rw [screenOne_passed_eq, screenOne_sector_small _ _ _ hsmall, Bool.and_true]

/-- Claim C5 witness: the theorem applied to a concrete one-member batch. -/
theorem C5_small_sector_safety_only_witness :
    (screenOne (sectorGroupOf wSmallList (wRec "S")) DEFAULT_SECTOR_THRESHOLDS
        (wRec "S")).screening_mode = "safety_only" :=
  (C5_small_sector_safety_only wSmallList DEFAULT_SECTOR_THRESHOLDS (wRec "S")
    (by simp [wSmallList]) rfl (by decide)).2.1

/-! ### Claim C7: invalid records -/

theorem screen_batch_error_filter (metrics_list : List TickerMetrics)
    (th : SectorRelativeThresholds) :
    (screen_batch_dual_track metrics_list th).filter
        (fun r => decide (r.screening_mode = "error")) =
      (metrics_list.filter (fun m => !m.is_valid)).map errorResult := by
  unfold screen_batch_dual_track
  rw [List.filter_append]
  have hsorted : ((((rawResults metrics_list th).filter
        (fun r => r.passed)).insertionSort (descRel sortKey)).filter
        (fun r => decide (r.screening_mode = "error"))) = [] := by
    rw [List.filter_eq_nil_iff]
    intro r hr
    have hr2 : r ∈ (rawResults metrics_list th).filter (fun r => r.passed) :=
      (List.mem_insertionSort _).mp hr
    have hpass : r.passed = true := (List.mem_filter.mp hr2).2
    have hmem : r ∈ rawResults metrics_list th := (List.mem_filter.mp hr2).1
    simp only [decide_eq_true_eq]
    intro he
    have hfalse := rawResults_error_passed metrics_list th r hmem he
    rw [hpass] at hfalse
    simp at hfalse
  have hfailed : (((rawResults metrics_list th).filter
        (fun r => !r.passed)).filter
        (fun r => decide (r.screening_mode = "error"))) =
      (rawResults metrics_list th).filter
        (fun r => decide (r.screening_mode = "error")) := by
    rw [List.filter_filter]
    refine List.filter_congr (fun r hr => ?_)
    by_cases he : r.screening_mode = "error"
    · have hp := rawResults_error_passed metrics_list th r hr he
      simp [he, hp]
    · simp [he]
  rw [hsorted, hfailed, List.nil_append, rawResults_error_filter]

/-- Claim C7: an invalid record (fetch error, or missing trailing EPS) is
excluded from the valid set used for grouping and ranking, and the batch
output contains for it an error entry: passed is false, mode is "error",
and the single failure reason carries the original fetch-error string;
the error entries of the output are exactly one per invalid record. -/
theorem C7_invalid_records (metrics_list : List TickerMetrics)
    (th : SectorRelativeThresholds) (m : TickerMetrics)
    (hm : m ∈ metrics_list) (hv : m.is_valid = false) :
    m ∉ metrics_list.filter (fun x => x.is_valid) ∧
    errorResult m ∈ screen_batch_dual_track metrics_list th ∧
    ((screen_batch_dual_track metrics_list th).filter
        (fun r => decide (r.screening_mode = "error")) =
      (metrics_list.filter (fun x => !x.is_valid)).map errorResult) ∧
    (errorResult m).passed = false ∧
    (errorResult m).screening_mode = "error" ∧
    (errorResult m).fail_reasons = ["資料抓取失敗: " ++ optStr m.fetch_error] ∧
    (∀ e, m.fetch_error = some e →
      (errorResult m).fail_reasons = ["資料抓取失敗: " ++ e]) := by
  refine ⟨?_, ?_, screen_batch_error_filter _ _, rfl, rfl, rfl, ?_⟩
  · intro hmem
    have hvt := (List.mem_filter.mp hmem).2
    rw [hv] at hvt
    simp at hvt
  · refine mem_screen_batch _ _ _ ?_
    unfold rawResults
    refine List.mem_append_right _ ?_
    exact List.mem_map_of_mem _ (List.mem_filter.mpr ⟨hm, by simp [hv]⟩)
  · intro e he
    simp [errorResult, optStr, he]

/-- Claim C7 witness: the theorem applied to a concrete failed record. -/
theorem C7_invalid_records_witness :
    (errorResult wBad).passed = false ∧
      (errorResult wBad).fail_reasons = ["資料抓取失敗: " ++ "boom"] := by
  have h := C7_invalid_records [wBad] DEFAULT_SECTOR_THRESHOLDS wBad
    (by simp) rfl
  exact ⟨h.2.2.2.1, h.2.2.2.2.2.2 "boom" rfl⟩

/-! ### Claim C8: serialization round trip -/

/-- Claim C8: serializing a result to the JSON dict shape and decoding it
back preserves symbol, passed, screening_mode and every nested
sector_percentiles field exactly. -/
theorem C8_roundtrip (r : SectorScreeningResult) :
    (resultFromDict r.to_dict).symbol = r.symbol ∧
    (resultFromDict r.to_dict).passed = r.passed ∧
    (resultFromDict r.to_dict).screening_mode = r.screening_mode ∧
    (resultFromDict r.to_dict).sector_percentiles = r.sector_percentiles := by
  refine ⟨rfl, rfl, rfl, ?_⟩
  cases hsp : r.sector_percentiles with
  | none => simp [SectorScreeningResult.to_dict, resultFromDict, hsp]
  | some sp => simp [SectorScreeningResult.to_dict, resultFromDict, hsp]

/-! ### Claim C9: Graham number and margin of safety -/

theorem grahamOf_pos (th : SectorRelativeThresholds) (m : TickerMetrics)
    (e b : ℚ) (he : m.trailing_eps = some e) (hb : m.book_value = some b)
    (hep : 0 < e) (hbp : 0 < b) :
    grahamOf th m =
      some (Real.sqrt ((th.graham_multiplier * e * b : ℚ) : ℝ)) := by
  simp [grahamOf, he, hb, ne_of_gt hep, ne_of_gt hbp, calculate_graham_number,
    hep.not_le, hbp.not_le]

theorem grahamOf_cases (th : SectorRelativeThresholds) (m : TickerMetrics)
    (gn : ℝ) (h : grahamOf th m = some gn) :
    ∃ e b, m.trailing_eps = some e ∧ m.book_value = some b ∧ 0 < e ∧ 0 < b ∧
      gn = Real.sqrt ((th.graham_multiplier * e * b : ℚ) : ℝ) := by
  cases he : m.trailing_eps with
  | none => simp [grahamOf, he] at h
  | some e =>
    cases hbv : m.book_value with
    | none => simp [grahamOf, he, hbv] at h
    | some b =>
      simp only [grahamOf, he, hbv] at h
      by_cases hcond : e ≠ 0 ∧ b ≠ 0
      · rw [if_pos hcond, calculate_graham_number] at h
        by_cases hle : e ≤ 0 ∨ b ≤ 0
        · rw [if_pos hle] at h
          exact absurd h (by simp)
        · rw [if_neg hle] at h
          push_neg at hle
          exact ⟨e, b, rfl, rfl, hle.1, hle.2, (Option.some.inj h).symm⟩
      · rw [if_neg hcond] at h
        exact absurd h (by simp)

/-- Claim C9 (amended): for any record screened by the combiner, with a
valid positive multiplier: the Graham estimate equals
sqrt(multiplier * EPS * BVPS) when EPS and BVPS are both present and
positive and is None when they are not; the margin equals
(estimate - price) / estimate * 100 whenever the estimate is defined and
a NONZERO current price exists, and is None otherwise — in particular a
price of exactly 0 yields no margin (Python truthiness), which is the
one divergence from the claim as stated. -/
theorem C9_graham_margin (g : List TickerMetrics)
    (th : SectorRelativeThresholds) (m : TickerMetrics)
    (hmult : 0 < th.graham_multiplier) :
    (∀ e b, m.trailing_eps = some e → m.book_value = some b →
      0 < e → 0 < b →
      (screenOne g th m).graham_number =
        some (Real.sqrt ((th.graham_multiplier * e * b : ℚ) : ℝ))) ∧
    ((¬∃ e b, m.trailing_eps = some e ∧ m.book_value = some b ∧
        0 < e ∧ 0 < b) →
      (screenOne g th m).graham_number = none) ∧
    (∀ gn p, (screenOne g th m).graham_number = some gn →
      m.current_price = some p → p ≠ 0 →
      (screenOne g th m).margin_of_safety_pct =
        some ((gn - (p : ℝ)) / gn * 100)) ∧
    (((screenOne g th m).graham_number = none ∨ m.current_price = none ∨
        m.current_price = some 0) →
      (screenOne g th m).margin_of_safety_pct = none) := by
  refine ⟨?_, ?_, ?_, ?_⟩
  · intro e b he hb hep hbp
    rw [screenOne_graham]
    exact grahamOf_pos th m e b he hb hep hbp
  · intro hnot
    rw [screenOne_graham]
    cases he : m.trailing_eps with
    | none => simp [grahamOf, he]
    | some e =>
      cases hbv : m.book_value with
      | none => simp [grahamOf, he, hbv]
      | some b =>
        have hle : e ≤ 0 ∨ b ≤ 0 := by
          by_contra hc
          push_neg at hc
          exact hnot ⟨e, b, he, hbv, hc.1, hc.2⟩
        simp only [grahamOf, he, hbv]
        split_ifs with hc
        · rw [calculate_graham_number, if_pos hle]
        · rfl
  · intro gn p hg hp hpn
    rw [screenOne_graham] at hg
    obtain ⟨e, b, _, _, hep, hbp, hgn⟩ := grahamOf_cases th m gn hg
    have hprod : (0 : ℝ) < ((th.graham_multiplier * e * b : ℚ) : ℝ) := by
      have hq : (0 : ℚ) < th.graham_multiplier * e * b :=
        mul_pos (mul_pos hmult hep) hbp
      exact_mod_cast hq
    have hgnpos : 0 < gn := hgn ▸ Real.sqrt_pos.mpr hprod
    rw [screenOne_mos]
    simp [mosOf, hg, hp, ne_of_gt hgnpos, hpn]
  · intro hcase
    rw [screenOne_mos]
    rcases hcase with hgn | hp | hp
    · rw [screenOne_graham] at hgn
      simp [mosOf, hgn]
    · cases hG : grahamOf th m <;> simp [mosOf, hG, hp]
    · cases hG : grahamOf th m <;> simp [mosOf, hG, hp]

/-- Claim C9 counterexample: for a record whose Graham estimate is defined
and whose current price exists but equals 0, the code yields no margin
(Python treats the 0.0 price as falsy), while the claim demands the value
(estimate - 0) / estimate * 100. -/
theorem C9_zero_price_margin_dropped :
    wPriceZero.current_price = some 0 ∧
    (screenOne [] DEFAULT_SECTOR_THRESHOLDS wPriceZero).graham_number ≠
      none ∧
    (screenOne [] DEFAULT_SECTOR_THRESHOLDS
        wPriceZero).margin_of_safety_pct = none := by
  refine ⟨rfl, ?_, ?_⟩
  · rw [screenOne_graham, grahamOf_pos DEFAULT_SECTOR_THRESHOLDS wPriceZero
      (8 / 5) 1 rfl rfl (by norm_num) (by norm_num)]
    simp
  · rw [screenOne_mos]
    cases hG : grahamOf DEFAULT_SECTOR_THRESHOLDS wPriceZero with
    | none => simp [mosOf, hG]
    | some gval =>
      have hp : wPriceZero.current_price = some (0 : ℚ) := rfl
      simp [mosOf, hG, hp]

/-- Claim C9 witness: the theorem applied to a concrete record with
positive EPS and book value. -/
theorem C9_graham_margin_witness :
    (screenOne [] DEFAULT_SECTOR_THRESHOLDS wGraham).graham_number =
      some (Real.sqrt
        ((DEFAULT_SECTOR_THRESHOLDS.graham_multiplier * (8 / 5) * 1 : ℚ) : ℝ)) := by
  exact (C9_graham_margin [] DEFAULT_SECTOR_THRESHOLDS wGraham
    (by norm_num [DEFAULT_SECTOR_THRESHOLDS])).1 (8 / 5) 1 rfl rfl
    (by norm_num) (by norm_num)

/-! ### Claim C1: the output ordering -/

theorem sqrt_graham_six :
    Real.sqrt ((DEFAULT_SECTOR_THRESHOLDS.graham_multiplier *
      (8 / 5) * 1 : ℚ) : ℝ) = 6 := by
  have h36 : ((DEFAULT_SECTOR_THRESHOLDS.graham_multiplier *
      (8 / 5) * 1 : ℚ) : ℝ) = 36 := by
    have : (DEFAULT_SECTOR_THRESHOLDS.graham_multiplier *
        (8 / 5) * 1 : ℚ) = 36 := by
      norm_num [DEFAULT_SECTOR_THRESHOLDS]
    rw [this]
    norm_num
  rw [h36, show (36 : ℝ) = 6 ^ 2 by norm_num,
    Real.sqrt_sq (by norm_num : (0 : ℝ) ≤ 6)]

theorem grahamOf_mA : grahamOf DEFAULT_SECTOR_THRESHOLDS mA = some 6 := by
  rw [grahamOf_pos DEFAULT_SECTOR_THRESHOLDS mA (8 / 5) 1 rfl rfl
    (by norm_num) (by norm_num), sqrt_graham_six]

theorem grahamOf_mB : grahamOf DEFAULT_SECTOR_THRESHOLDS mB = some 6 := by
  rw [grahamOf_pos DEFAULT_SECTOR_THRESHOLDS mB (8 / 5) 1 rfl rfl
    (by norm_num) (by norm_num), sqrt_graham_six]

theorem mosOf_mA : mosOf DEFAULT_SECTOR_THRESHOLDS mA = some 0 := by
  have hp : mA.current_price = some (6 : ℚ) := rfl
  norm_num [mosOf, grahamOf_mA, hp]

theorem mosOf_mB : mosOf DEFAULT_SECTOR_THRESHOLDS mB = some (-5) := by
  have hp : mB.current_price = some (63 / 10 : ℚ) := rfl
  norm_num [mosOf, grahamOf_mB, hp]

theorem margin_RB :
    (screenOne [mB, mA] DEFAULT_SECTOR_THRESHOLDS mB).margin_of_safety_pct =
      some (-5) := by
  rw [screenOne_mos, mosOf_mB]

theorem margin_RA :
    (screenOne [mB, mA] DEFAULT_SECTOR_THRESHOLDS mA).margin_of_safety_pct =
      some 0 := by
  rw [screenOne_mos, mosOf_mA]

theorem passed_RB :
    (screenOne [mB, mA] DEFAULT_SECTOR_THRESHOLDS mB).passed = true := rfl

theorem passed_RA :
    (screenOne [mB, mA] DEFAULT_SECTOR_THRESHOLDS mA).passed = true := rfl

theorem key_RB :
    sortKey (screenOne [mB, mA] DEFAULT_SECTOR_THRESHOLDS mB) = -5 := by
  rw [sortKey, margin_RB]
  norm_num

theorem key_RA :
    sortKey (screenOne [mB, mA] DEFAULT_SECTOR_THRESHOLDS mA) = -999 := by
  rw [sortKey, margin_RA]
  norm_num

theorem raw_eval :
    rawResults [mB, mA] DEFAULT_SECTOR_THRESHOLDS =
      [screenOne [mB, mA] DEFAULT_SECTOR_THRESHOLDS mB,
       screenOne [mB, mA] DEFAULT_SECTOR_THRESHOLDS mA] := rfl

theorem batch_eval :
    screen_batch_dual_track [mB, mA] DEFAULT_SECTOR_THRESHOLDS =
      [screenOne [mB, mA] DEFAULT_SECTOR_THRESHOLDS mB,
       screenOne [mB, mA] DEFAULT_SECTOR_THRESHOLDS mA] := by
  have hrel : descRel sortKey
      (screenOne [mB, mA] DEFAULT_SECTOR_THRESHOLDS mB)
      (screenOne [mB, mA] DEFAULT_SECTOR_THRESHOLDS mA) := by
    show sortKey _ ≤ sortKey _
    rw [key_RA, key_RB]
    norm_num
  unfold screen_batch_dual_track
  rw [raw_eval]
  rw [List.filter_cons_of_pos passed_RB, List.filter_cons_of_pos passed_RA,
    List.filter_nil]
  rw [List.filter_cons_of_neg (by simp [passed_RB]),
    List.filter_cons_of_neg (by simp [passed_RA]),
    List.filter_nil, List.append_nil]
  simp only [List.insertionSort, List.orderedInsert_nil]
  show List.orderedInsert _ _ [_] = _
  simp only [List.orderedInsert]
  rw [if_pos hrel]

/-- Claim C1 counterexample: records B (margin -5) and A (margin 0) both
pass, yet the code sorts B before A because `margin or -999` maps the zero
margin of A to the -999 sentinel (Python truthiness); the claim demands
that A (margin 0 >= -5) precede B.  The ordering clause of the claim is
therefore false at this input. -/
theorem C1_zero_margin_counterexample :
    ((screen_batch_dual_track [mB, mA] DEFAULT_SECTOR_THRESHOLDS).map
        (fun r => (r.symbol, r.passed, r.margin_of_safety_pct)) =
      [("B", true, some (-5 : ℝ)), ("A", true, some (0 : ℝ))]) ∧
    ¬C1Prop [mB, mA] DEFAULT_SECTOR_THRESHOLDS := by
  constructor
  · rw [batch_eval]
    simp only [List.map_cons, List.map_nil]
    rw [screenOne_symbol, screenOne_symbol, passed_RB, passed_RA,
      margin_RB, margin_RA]
    rfl
  · intro h
    unfold C1Prop at h
    obtain ⟨-, h2, -, -⟩ := h
    have hlen : (screen_batch_dual_track [mB, mA]
        DEFAULT_SECTOR_THRESHOLDS).length = 2 := by
      rw [batch_eval]
      rfl
    have hi : 0 < (screen_batch_dual_track [mB, mA]
        DEFAULT_SECTOR_THRESHOLDS).length := by omega
    have hj : 1 < (screen_batch_dual_track [mB, mA]
        DEFAULT_SECTOR_THRESHOLDS).length := by omega
    have hgB : (screen_batch_dual_track [mB, mA]
          DEFAULT_SECTOR_THRESHOLDS).get ⟨0, hi⟩ =
        screenOne [mB, mA] DEFAULT_SECTOR_THRESHOLDS mB := by
      rw [List.get_of_eq batch_eval]
      rfl
    have hgA : (screen_batch_dual_track [mB, mA]
          DEFAULT_SECTOR_THRESHOLDS).get ⟨1, hj⟩ =
        screenOne [mB, mA] DEFAULT_SECTOR_THRESHOLDS mA := by
      rw [List.get_of_eq batch_eval]
      rfl
    have hiff := h2 0 1 hi hj (by norm_num)
      (by rw [hgB]; exact passed_RB) (by rw [hgA]; exact passed_RA)
      (-5) 0 (by rw [hgB]; exact margin_RB) (by rw [hgA]; exact margin_RA)
    have hle := hiff.mp (by norm_num)
    norm_num at hle

/-- Claim C1 (amended): the batch output puts every passed result before
every failed result; among passed results the sort key (the margin, with a
missing OR ZERO margin replaced by the -999 sentinel) is non-increasing
along the list, so a passed result with strictly larger key precedes one
with a smaller key; passed results sharing one key value keep their
insertion order, and the failed results keep their insertion order.  The
amendment replaces the margin of the claim by this sentinel key: a margin of
exactly 0 sorts as if missing, and the sentinel is not below margins
smaller than -999. -/
theorem C1_sort_contract (metrics_list : List TickerMetrics)
    (th : SectorRelativeThresholds) :
    List.Pairwise (fun a b => b.passed = true → a.passed = true)
        (screen_batch_dual_track metrics_list th) ∧
    List.Pairwise (fun a b => a.passed = true → b.passed = true →
        sortKey b ≤ sortKey a)
        (screen_batch_dual_track metrics_list th) ∧
    ((screen_batch_dual_track metrics_list th).filter (fun r => !r.passed) =
      (rawResults metrics_list th).filter (fun r => !r.passed)) ∧
    (∀ c : ℝ, (screen_batch_dual_track metrics_list th).filter
          (fun r => r.passed && marginKeyIs c r) =
        (rawResults metrics_list th).filter
          (fun r => r.passed && marginKeyIs c r)) := by
  have hallp : ∀ r ∈ (((rawResults metrics_list th).filter
      (fun r => r.passed)).insertionSort (descRel sortKey)),
      r.passed = true := by
    intro r hr
    exact (List.mem_filter.mp ((List.mem_insertionSort _).mp hr)).2
  have hallf : ∀ r ∈ (rawResults metrics_list th).filter (fun r => !r.passed),
      r.passed = false := by
    intro r hr
    have hb := (List.mem_filter.mp hr).2
    simpa using hb
  refine ⟨?_, ?_, ?_, ?_⟩
  · unfold screen_batch_dual_track
    rw [List.pairwise_append]
    refine ⟨List.pairwise_of_forall_mem_list
        (fun a ha b _ => fun _ => hallp a ha),
      List.pairwise_of_forall_mem_list (fun a _ b hb => fun hbp => ?_),
      fun a ha b _ => fun _ => hallp a ha⟩
    rw [hallf b hb] at hbp
    exact absurd hbp (by simp)
  · unfold screen_batch_dual_track
    rw [List.pairwise_append]
    refine ⟨?_,
      List.pairwise_of_forall_mem_list (fun a _ b hb => fun _ hbp => ?_),
      fun a _ b hb => fun _ hbp => ?_⟩
    · have hs := List.sorted_insertionSort (descRel sortKey)
        ((rawResults metrics_list th).filter (fun r => r.passed))
      exact hs.imp (fun h _ _ => h)
    · rw [hallf b hb] at hbp
      exact absurd hbp (by simp)
    · rw [hallf b hb] at hbp
      exact absurd hbp (by simp)
  · unfold screen_batch_dual_track
    rw [List.filter_append]
    have h1 : ((((rawResults metrics_list th).filter
        (fun r => r.passed)).insertionSort (descRel sortKey)).filter
        (fun r => !r.passed)) = [] := by
      rw [List.filter_eq_nil_iff]
      intro r hr
      simp [hallp r hr]
    have h2 : (((rawResults metrics_list th).filter
        (fun r => !r.passed)).filter (fun r => !r.passed)) =
        (rawResults metrics_list th).filter (fun r => !r.passed) := by
      rw [List.filter_eq_self]
      intro r hr
      simp [hallf r hr]
    rw [h1, h2, List.nil_append]
  · intro c
    unfold screen_batch_dual_track
    rw [List.filter_append]
    have h1 : (((rawResults metrics_list th).filter
        (fun r => !r.passed)).filter
        (fun r => r.passed && marginKeyIs c r)) = [] := by
      rw [List.filter_eq_nil_iff]
      intro r hr
      simp [hallf r hr]
    have hp : ∀ a : SectorScreeningResult,
        (a.passed && marginKeyIs c a) = true → sortKey a = c := by
      intro a ha
      rw [Bool.and_eq_true] at ha
      exact of_decide_eq_true ha.2
    rw [filter_insertionSort_keyEq sortKey
        (fun r => r.passed && marginKeyIs c r) c hp, h1, List.append_nil]
    rw [List.filter_filter]
    refine List.filter_congr (fun r _ => ?_)
    cases hr : r.passed <;> simp [hr]

/-- Claim C1 witness: the amended contract applied to the concrete
two-record batch; the failed results (none here) keep insertion order. -/
theorem C1_sort_contract_witness :
    (screen_batch_dual_track [mB, mA] DEFAULT_SECTOR_THRESHOLDS).filter
        (fun r => !r.passed) =
      (rawResults [mB, mA] DEFAULT_SECTOR_THRESHOLDS).filter
        (fun r => !r.passed) :=
  (C1_sort_contract [mB, mA] DEFAULT_SECTOR_THRESHOLDS).2.2.1
